import Mathlib

/-!
# S3 storage backend (`storage/backend/s3/s3.go`)

A shallow embedding of the S3 backend of drone-cache: the constructor `New` and
the three operations `Get`, `Put` and `Exists` of `Backend`.

The AWS SDK is outside the repository.  Its client is a record of functions
over an abstract service state (`Service σ`), so that every theorem holds for
every behaviour of the remote service; a concrete in-memory service
(`memService`) is used for the round-trip law.

`Get` runs a goroutine and then waits in a `select`.  It is embedded as a
transition system (`GetState`, `getStep`) driven by a schedule, a list of
`Action`s that decides the interleaving of the goroutine, the `select` and the
cancellation of the caller's context.
-/

namespace S3

/-! ## Errors -/

/-- Byte content of an object or of a stream. -/
abbrev Bytes := List UInt8

/-- The two errors a done `context.Context` reports through `ctx.Err()`. -/
inductive Cause
  | canceled
  | deadlineExceeded
  deriving DecidableEq, Repr

/-- Go `error` values, as far as the backend can tell them apart:
`noSuchKey` is a `*types.NoSuchKey`, `notFound` is a `*types.NotFound` (what
the client makes of the 404 answer to a head request, which has no body to
name an error code), `service` any other error of the SDK or of a stream,
`context` is `context.Canceled` / `context.DeadlineExceeded`, and
`wrapped pfx cause` is the result of `fmt.Errorf(pfx + "%w", cause)` (or any
SDK error that wraps another one with a message prefix). -/
inductive GoError
  | noSuchKey (msg : String)
  | notFound (msg : String)
  | service (msg : String)
  | context (c : Cause)
  | wrapped (pfx : String) (cause : GoError)
  deriving DecidableEq, Repr

/-- The text of `Cause`, as `err.Error()` prints it. -/
def Cause.message : Cause → String
  | .canceled => "context canceled"
  | .deadlineExceeded => "context deadline exceeded"

/-- The method `Error()`: with `%w` the message of the cause follows the prefix. -/
def GoError.message : GoError → String
  | .noSuchKey msg => msg
  | .notFound msg => msg
  | .service msg => msg
  | .context c => c.message
  | .wrapped pfx cause => pfx ++ cause.message

/-- The function `errors.Unwrap`. -/
def GoError.unwrap : GoError → Option GoError
  | .wrapped _ cause => some cause
  | _ => none

/-- The call `errors.As(err, &nsk)` with `nsk : *types.NoSuchKey`: walks the
chain of wrapped errors looking for a `NoSuchKey`; an error of another type,
`*types.NotFound` included, does not match. -/
def errorsAsNoSuchKey : GoError → Bool
  | .noSuchKey _ => true
  | .wrapped _ cause => errorsAsNoSuchKey cause
  | _ => false

/-- The call `errors.Is(err, target)`: `target` occurs in the chain of `err`. -/
def errorsIs (err target : GoError) : Bool :=
  if err = target then true
  else match err with
    | .wrapped _ cause => errorsIs cause target
    | _ => false

/-- The function `fmt.Errorf(pfx + "%w", err)`. -/
def errorf (pfx : String) (err : GoError) : GoError := .wrapped pfx err

/-! ## Contexts, streams and requests -/

/-- A `context.Context`, reduced to what `ctx.Err()` answers: `none` while the
context is live, the cause once it is done. -/
structure Context where
  err : Option Cause
  deriving DecidableEq, Repr

/-- The method `ctx.Err()` as a Go `error`. -/
def Context.Err (ctx : Context) : Option GoError := ctx.err.map GoError.context

/-- An `io.Reader` / `io.ReadCloser`: the bytes it yields, then end of file
(`fault = none`) or a read error. -/
structure Stream where
  data : Bytes
  fault : Option GoError
  deriving DecidableEq, Repr

/-- An `io.Writer`: the bytes written so far and, when `fault = some (n, e)`,
the number of further bytes it accepts before `Write` fails with `e`. -/
structure Writer where
  written : Bytes
  fault : Option (Nat × GoError)
  deriving DecidableEq, Repr

/-- The function `io.Copy(w, src)`: writes what `src` yields to `w` until end
of file or the first error.  A write error comes first when the writer gives
up before the data ends; otherwise the read error of the source, if any. -/
def ioCopy (w : Writer) (src : Stream) : Writer × Option GoError :=
  match w.fault with
  | some (n, e) =>
    if n < src.data.length then
      ({ written := w.written ++ src.data.take n, fault := some (0, e) }, some e)
    else
      ({ written := w.written ++ src.data, fault := some (n - src.data.length, e) }, src.fault)
  | none => ({ w with written := w.written ++ src.data }, src.fault)

/-- The SDK type `s3.GetObjectInput` (the fields the backend sets). -/
structure GetObjectInput where
  Bucket : Option String
  Key : Option String
  deriving DecidableEq, Repr

/-- The SDK type `s3.HeadObjectInput` (the fields the backend sets). -/
structure HeadObjectInput where
  Bucket : Option String
  Key : Option String
  deriving DecidableEq, Repr

/-- The SDK type `s3.PutObjectInput` (the fields the backend sets).
`ServerSideEncryption = none` is the field the composite literal leaves alone
(no assignment, nothing sent); `some s` is the field after `in.ServerSideEncryption = s`. -/
structure PutObjectInput where
  Bucket : Option String
  Key : Option String
  ACL : String
  Body : Stream
  ServerSideEncryption : Option String
  deriving DecidableEq, Repr

/-- The SDK type `s3.GetObjectOutput`: the response body. -/
structure GetObjectOutput where
  Body : Stream
  deriving DecidableEq, Repr

/-- The SDK type `s3.HeadObjectOutput`: `ETag` is a `*string`, `none` the nil pointer. -/
structure HeadObjectOutput where
  ETag : Option String
  deriving DecidableEq, Repr

/-- The remote service behind `*s3.Client` and `manager.Uploader`, over a
service state `σ`: each call sees the context it was given and the request,
and answers with the new state and a result or an error. -/
structure Service (σ : Type) where
  GetObject : σ → Context → GetObjectInput → σ × Except GoError GetObjectOutput
  Upload : σ → Context → PutObjectInput → σ × Option GoError
  HeadObject : σ → Context → HeadObjectInput → σ × Except GoError HeadObjectOutput

/-! ## The backend and its constructor -/

/-- The backend configuration `Config` (the fields `New` reads). -/
structure Config where
  Region : String
  Profile : String
  Bucket : String
  ACL : String
  Encryption : String
  deriving DecidableEq, Repr

/-- The SDK type `aws.Config`, reduced to what `LoadDefaultConfig` is asked for. -/
structure AwsConfig where
  Region : String
  SharedConfigProfile : String
  deriving DecidableEq, Repr

/-- The options handed to `config.LoadDefaultConfig`: `WithRegion` always,
`WithSharedConfigProfile` only when a profile is configured. -/
structure LoadOptions where
  region : String
  sharedConfigProfile : Option String
  deriving DecidableEq, Repr

/-- One record of the go-kit logger: its key/value pairs. -/
abbrev LogRecord := List (String × String)

/-- A `log.Logger`, as the list of records emitted to it (oldest first). -/
abbrev Logger := List LogRecord

/-- The call `level.Error(l).Log("err", err)`. -/
def logError (l : Logger) (err : GoError) : Logger :=
  l ++ [[("level", "error"), ("err", err.message)]]

/-- The client handle `*s3.Client` made by `s3.NewFromConfig(cfg)`. -/
structure S3Client where
  cfg : AwsConfig
  deriving DecidableEq, Repr

/-- The function `s3.NewFromConfig`. -/
def NewFromConfig (cfg : AwsConfig) : S3Client := { cfg := cfg }

/-- The type `Backend`. -/
structure Backend where
  logger : Logger
  bucket : String
  acl : String
  encryption : String
  client : S3Client
  deriving DecidableEq, Repr

/-- The function `New`, over the SDK function `config.LoadDefaultConfig`
(`load`).  It answers the pair `(*Backend, error)` of the Go function. -/
def New (load : LoadOptions → AwsConfig × Option GoError)
    (l : Logger) (c : Config) (_debug : Bool) : Option Backend × Option GoError :=
  let (cfg, err) :=
    if c.Profile ≠ "" then
      load { region := c.Region, sharedConfigProfile := some c.Profile }
    else
      load { region := c.Region, sharedConfigProfile := none }
  let l1 := match err with
    | some e => logError l e
    | none => l
  let client := NewFromConfig cfg
  (some { logger := l1, bucket := c.Bucket, acl := c.ACL, encryption := c.Encryption,
          client := client }, none)

/-! ## Put and Exists -/

/-- The request `Put` builds: the composite literal, then the conditional
assignment of the encryption mode. -/
def Backend.putInput (b : Backend) (p : String) (r : Stream) : PutObjectInput :=
  let inp : PutObjectInput :=
    { Bucket := some b.bucket, Key := some p, ACL := b.acl, Body := r,
      ServerSideEncryption := none }
  if b.encryption ≠ "" then
    { inp with ServerSideEncryption := some b.encryption }
  else
    inp

/-- The method `Backend.Put`. -/
def Backend.Put {σ : Type} (b : Backend) (svc : Service σ) (st : σ)
    (ctx : Context) (p : String) (r : Stream) : σ × Option GoError :=
  match svc.Upload st ctx (b.putInput p r) with
  | (st1, some err) => (st1, some (errorf "put the object, " err))
  | (st1, none) => (st1, none)

/-- What a call of a Go function comes to: it returns, or it panics on a nil
pointer dereference. -/
inductive Outcome (α : Type)
  | ret (v : α)
  | nilDereference
  deriving DecidableEq, Repr

/-- The request `Exists` builds. -/
def Backend.headInput (b : Backend) (p : String) : HeadObjectInput :=
  { Bucket := some b.bucket, Key := some p }

/-- The method `Backend.Exists`.  The last line of the Go function
dereferences `out.ETag`; on the nil pointer this is a runtime panic. -/
def Backend.Exists {σ : Type} (b : Backend) (svc : Service σ) (st : σ)
    (ctx : Context) (p : String) : σ × Outcome (Bool × Option GoError) :=
  match svc.HeadObject st ctx (b.headInput p) with
  | (st1, .error err) =>
    if errorsAsNoSuchKey err then
      (st1, .ret (false, none))
    else
      (st1, .ret (false, some (errorf "head the object, " err)))
  | (st1, .ok out) =>
    match out.ETag with
    | none => (st1, .nilDereference)
    | some etag => (st1, .ret (decide (etag ≠ ""), none))

/-! ## Get -/

/-- The request `Get` builds. -/
def Backend.getInput (b : Backend) (p : String) : GetObjectInput :=
  { Bucket := some b.bucket, Key := some p }

/-- The response body of `GetObject`: not opened yet, open, or closed. -/
inductive BodyStatus
  | unopened
  | opened
  | closed
  deriving DecidableEq, Repr

/-- Where the goroutine of `Get` stands.  `sendGetErr e` and `sendCopyErr e`
are the two sends `errCh <- e`, at which the goroutine blocks until `Get`
receives (the channel is unbuffered); `closeBody` and `closeErrCh` are the
two deferred calls, run in this order when the function literal returns. -/
inductive Pc
  | callGetObject
  | sendGetErr (e : GoError)
  | copy (body : Stream)
  | sendCopyErr (e : GoError)
  | closeBody
  | closeErrCh
  | exited
  deriving DecidableEq, Repr

/-- The state of one call of `Get`: the service state, the caller's context
and writer, the goroutine, the response body, the channel `errCh`, and what
`Get` has returned (`none` while it waits in `select`). -/
structure GetState (σ : Type) where
  svc : σ
  ctx : Context
  w : Writer
  pc : Pc
  body : BodyStatus
  errChClosed : Bool
  ret : Option (Option GoError)

/-- What can happen next during a call of `Get`: the caller's context becomes
done, the goroutine runs on to its next call or communication, or the
`select` of `Get` takes one of its two cases. -/
inductive Action
  | cancel (c : Cause)
  | goroutine
  | recvErrCh
  | recvDone
  deriving DecidableEq, Repr

/-- Whether an action is the cancellation of the context. -/
def Action.isCancel : Action → Bool
  | .cancel _ => true
  | _ => false

/-- Modelled from the spec: `internal.CloseWithErrLogf` (package `internal`
of this repository) closes the response body and logs a failure to close; the
response body is released by it. -/
def CloseWithErrLogf (_body : BodyStatus) : BodyStatus := .closed

/-- One step of a call of `Get` (`none`: the action is not enabled).

* `cancel`: a live context becomes done.
* `goroutine`: the body of the function literal, from one blocking point to
  the next; it cannot move while it is blocked in a send, nor once it exited.
* `recvErrCh`: `case err := <-errCh`, enabled when the goroutine is blocked in
  a send (the two meet) or when the channel is closed (the receive yields nil).
* `recvDone`: `case <-ctx.Done()`, enabled when the context is done.

The `select` takes a case that is ready; when both are ready either can be
taken, and nothing orders the choice before the progress of the goroutine. -/
def getStep {σ : Type} (svc : Service σ) (b : Backend) (p : String) :
    Action → GetState σ → Option (GetState σ)
  | .cancel c, s =>
    match s.ctx.err with
    | none => some { s with ctx := { err := some c } }
    | some _ => none
  | .goroutine, s =>
    match s.pc with
    | .callGetObject =>
      match svc.GetObject s.svc s.ctx (b.getInput p) with
      | (st1, .error err) =>
        some { s with svc := st1, pc := .sendGetErr (errorf "get the object, " err) }
      | (st1, .ok out) =>
        some { s with svc := st1, pc := .copy out.Body, body := .opened }
    | .copy body =>
      match ioCopy s.w body with
      | (w1, some err) =>
        some { s with w := w1, pc := .sendCopyErr (errorf "copy the object, " err) }
      | (w1, none) => some { s with w := w1, pc := .closeBody }
    | .closeBody => some { s with body := CloseWithErrLogf s.body, pc := .closeErrCh }
    | .closeErrCh => some { s with errChClosed := true, pc := .exited }
    | .sendGetErr _ => none
    | .sendCopyErr _ => none
    | .exited => none
  | .recvErrCh, s =>
    match s.ret with
    | some _ => none
    | none =>
      match s.pc with
      | .sendGetErr e => some { s with ret := some (some e), pc := .closeErrCh }
      | .sendCopyErr e => some { s with ret := some (some e), pc := .closeBody }
      | _ => if s.errChClosed then some { s with ret := some none } else none
  | .recvDone, s =>
    match s.ret with
    | some _ => none
    | none =>
      match s.ctx.Err with
      | some e => some { s with ret := some (some e) }
      | none => none

/-- Runs a schedule: each action in turn, skipping those that are not enabled. -/
def getRun {σ : Type} (svc : Service σ) (b : Backend) (p : String) :
    List Action → GetState σ → GetState σ
  | [], s => s
  | a :: rest, s =>
    match getStep svc b p a s with
    | some s1 => getRun svc b p rest s1
    | none => getRun svc b p rest s

/-- The state in which `Get` starts: the goroutine is about to call
`GetObject`, `errCh` is open, and `Get` is at its `select`. -/
def getInit {σ : Type} (st : σ) (ctx : Context) (w : Writer) : GetState σ :=
  { svc := st, ctx := ctx, w := w, pc := .callGetObject, body := .unopened,
    errChClosed := false, ret := none }

/-- The method `Backend.Get`, under a schedule: the state the call is in after
the schedule; `ret` is the error `Get` returned, if it has returned. -/
def Backend.Get {σ : Type} (b : Backend) (svc : Service σ) (st : σ)
    (ctx : Context) (p : String) (w : Writer) (sched : List Action) : GetState σ :=
  getRun svc b p sched (getInit st ctx w)

/-! ## Services used in the statements -/

/-- An in-memory object store: the content stored under each bucket and key,
the latest upload first. -/
abbrev MemStore := List ((String × String) × Bytes)

/-- The error a call gets from the in-memory service when its context is done. -/
def ctxFailure (op : String) (c : Cause) : GoError :=
  .wrapped ("operation error S3: " ++ op ++ ", ") (.context c)

/-- The error of the in-memory service for a key it does not hold. -/
def noSuchKeyError : GoError :=
  .wrapped "operation error S3: " (.noSuchKey "NoSuchKey: The specified key does not exist.")

/-- The error of the in-memory service for a head request of a key it does
not hold: the client reports the 404 of a head request as `*types.NotFound`. -/
def notFoundError : GoError :=
  .wrapped "operation error S3: HeadObject, " (.notFound "NotFound: Not Found")

/-- The error of the client for a request with an empty key: it is refused
before anything is sent. -/
def emptyKeyError (op : String) : GoError :=
  .wrapped ("operation error S3: " ++ op ++ ", ")
    (.service "input member Key must not be empty")

/-- A faithful in-memory service.  `Upload` records the whole body under the
bucket and key of the request, unless the context is done, the key is empty,
the body cannot be read, or `deny` refuses the key; `GetObject` and
`HeadObject` answer from the map, and the ETag of a stored object is `etagOf`
of its content.  For a key that is not there `GetObject` fails with a
`NoSuchKey` error and `HeadObject` with a `NotFound` error, as the client of
the SDK does; a request with an empty key is refused. -/
def memService (etagOf : Bytes → String) (deny : String → Option GoError) :
    Service MemStore where
  GetObject st ctx inp :=
    match ctx.err, inp.Bucket, inp.Key with
    | some c, _, _ => (st, .error (ctxFailure "GetObject" c))
    | none, some bucket, some key =>
      if key = "" then (st, .error (emptyKeyError "GetObject"))
      else
        match st.lookup (bucket, key) with
        | some content => (st, .ok { Body := { data := content, fault := none } })
        | none => (st, .error noSuchKeyError)
    | none, _, _ => (st, .error (.service "validation error"))
  Upload st ctx inp :=
    match ctx.err, inp.Bucket, inp.Key with
    | some c, _, _ => (st, some (ctxFailure "PutObject" c))
    | none, some bucket, some key =>
      if key = "" then (st, some (emptyKeyError "PutObject"))
      else
        match deny key, inp.Body.fault with
        | some e, _ => (st, some e)
        | none, some e => (st, some e)
        | none, none => (((bucket, key), inp.Body.data) :: st, none)
    | none, _, _ => (st, some (.service "validation error"))
  HeadObject st ctx inp :=
    match ctx.err, inp.Bucket, inp.Key with
    | some c, _, _ => (st, .error (ctxFailure "HeadObject" c))
    | none, some bucket, some key =>
      if key = "" then (st, .error (emptyKeyError "HeadObject"))
      else
        match st.lookup (bucket, key) with
        | some content => (st, .ok { ETag := some (etagOf content) })
        | none => (st, .error notFoundError)
    | none, _, _ => (st, .error (.service "validation error"))

/-- A call received by the service. -/
inductive Call
  | getObject (ctx : Context) (inp : GetObjectInput)
  | upload (ctx : Context) (inp : PutObjectInput)
  | headObject (ctx : Context) (inp : HeadObjectInput)
  deriving DecidableEq, Repr

/-- Any service, with a record of the calls it receives (oldest first) kept
next to its state. -/
def recording {σ : Type} (svc : Service σ) : Service (σ × List Call) where
  GetObject st ctx inp :=
    let r := svc.GetObject st.1 ctx inp
    ((r.1, st.2 ++ [Call.getObject ctx inp]), r.2)
  Upload st ctx inp :=
    let r := svc.Upload st.1 ctx inp
    ((r.1, st.2 ++ [Call.upload ctx inp]), r.2)
  HeadObject st ctx inp :=
    let r := svc.HeadObject st.1 ctx inp
    ((r.1, st.2 ++ [Call.headObject ctx inp]), r.2)

/-- A schedule in which the context is never cancelled. -/
def noCancel (sched : List Action) : Prop := ∀ a ∈ sched, a.isCancel = false

instance (sched : List Action) : Decidable (noCancel sched) := by
  unfold noCancel; infer_instance

/-! ## Invariant of the schedules of `Get` -/

/-- The transfer of a call of `Get` is complete in state `s`: `GetObject`
succeeded under some state of the context, and the copy of its body into the
caller's writer `w` ended without error, leaving the writer as it is in `s`. -/
def TransferDone {σ : Type} (svc : Service σ) (b : Backend) (p : String) (st : σ)
    (w : Writer) (s : GetState σ) : Prop :=
  ∃ ctx1 body, svc.GetObject st ctx1 (b.getInput p) = (s.svc, .ok { Body := body }) ∧
    ioCopy w body = (s.w, none)

/-- Where a call of `Get` started from service state `st` with writer `w` can
be: it has returned an error, or it has returned nothing yet and `errCh` is
still open, or the goroutine exited after a complete transfer. -/
def GetInv {σ : Type} (svc : Service σ) (b : Backend) (p : String) (st : σ)
    (w : Writer) (s : GetState σ) : Prop :=
  (∃ e, s.ret = some (some e)) ∨
  (s.ret = none ∧ s.errChClosed = false ∧
    ((s.pc = .callGetObject ∧ s.svc = st ∧ s.w = w) ∨
     (∃ e, s.pc = .sendGetErr e) ∨ (∃ e, s.pc = .sendCopyErr e) ∨
     (∃ body ctx1, s.pc = .copy body ∧ s.w = w ∧
        svc.GetObject st ctx1 (b.getInput p) = (s.svc, .ok { Body := body })) ∨
     (s.pc = .closeBody ∧ TransferDone svc b p st w s) ∨
     (s.pc = .closeErrCh ∧ s.body = .closed ∧ TransferDone svc b p st w s))) ∨
  (s.pc = .exited ∧ s.body = .closed ∧ s.errChClosed = true ∧ TransferDone svc b p st w s ∧
    (s.ret = none ∨ s.ret = some none))

/-! ## Concrete inputs -/

/-- A configuration without profile and without encryption mode. -/
def exampleConfig : Config :=
  { Region := "eu-west-1", Profile := "", Bucket := "cache-bucket", ACL := "private",
    Encryption := "" }

/-- The backend `New` builds from `exampleConfig`. -/
def exampleBackend : Backend :=
  { logger := [], bucket := "cache-bucket", acl := "private", encryption := "",
    client := NewFromConfig { Region := "eu-west-1", SharedConfigProfile := "" } }

/-- A `LoadDefaultConfig` that cannot resolve the configuration. -/
def failingLoad (_o : LoadOptions) : AwsConfig × Option GoError :=
  ({ Region := "", SharedConfigProfile := "" },
   some (.service "failed to get shared config profile"))

/-- The ETag of the examples: never empty. -/
def exampleEtag (_content : Bytes) : String := "etag-1"

/-- A service that refuses nothing. -/
def allowAll (_key : String) : Option GoError := none

/-- The in-memory service of the examples. -/
def exampleService : Service MemStore := memService exampleEtag allowAll

/-- A service whose head request reports success without any ETag, for every
key (the behaviour the comment in `Exists` ascribes to Minio). -/
def etaglessService : Service Unit where
  GetObject st _ _ := (st, .error noSuchKeyError)
  Upload st _ _ := (st, none)
  HeadObject st _ _ := (st, .ok { ETag := none })

/-- The bytes of `hello`. -/
def hello : Bytes := [104, 101, 108, 108, 111]

/-- A live context. -/
def background : Context := { err := none }

/-- An empty writer that accepts everything. -/
def buffer : Writer := { written := [], fault := none }

/-- A service whose response body yields two bytes and then fails to read, as
a transfer that is cut off does. -/
def stalledService : Service Unit where
  GetObject st _ _ :=
    (st, .ok { Body := { data := [104, 101], fault := some (.service "unexpected EOF") } })
  Upload st _ _ := (st, none)
  HeadObject st _ _ := (st, .ok { ETag := some "etag-1" })

/-- A service in which every call is refused. -/
def forbiddenService : Service Unit where
  GetObject st _ _ := (st, .error (.service "AccessDenied: Access Denied"))
  Upload st _ _ := (st, some (.service "AccessDenied: Access Denied"))
  HeadObject st _ _ := (st, .error (.service "AccessDenied: Access Denied"))

/-- The in-memory store that holds `hello` under `cache/abc.tar`. -/
def helloStore : MemStore := [(("cache-bucket", "cache/abc.tar"), hello)]

/-! ## Theorems -/

/-- The branch of `Exists` for a `NoSuchKey`: when the head request fails with
an error in whose chain there is a `NoSuchKey`, `Exists` returns `(false, nil)`. -/
theorem exists_noSuchKey {σ : Type} (b : Backend) (svc : Service σ) (st st1 : σ)
    (ctx : Context) (k : String) (err : GoError)
    (hhead : svc.HeadObject st ctx (b.headInput k) = (st1, .error err))
    (hnsk : errorsAsNoSuchKey err = true) :
    b.Exists svc st ctx k = (st1, .ret (false, none)) := by
  simp [Backend.Exists, hhead, hnsk]

/-- C2 fails on the code: for `missing/key` on the empty bucket the head
request fails with a `NotFound` error, in which `errors.As` finds no
`NoSuchKey`, and `Exists` returns false with the wrapped error instead of
`(false, nil)`. -/
theorem exists_missing_key_returns_error :
    exampleService.HeadObject [] background (exampleBackend.headInput "missing/key")
        = ([], .error notFoundError) ∧
      errorsAsNoSuchKey notFoundError = false ∧
      exampleBackend.Exists exampleService [] background "missing/key"
        = ([], .ret (false, some (errorf "head the object, " notFoundError))) ∧
      (exampleBackend.Exists exampleService [] background "missing/key").2
        ≠ .ret (false, none) := by
  refine ⟨rfl, rfl, rfl, ?_⟩
  have h : exampleBackend.Exists exampleService [] background "missing/key"
      = ([], .ret (false, some (errorf "head the object, " notFoundError))) := rfl
  rw [h]
  simp

/-- The one call a recording service receives from `Put`. -/
theorem put_recording_calls {σ : Type} (b : Backend) (svc : Service σ) (st : σ)
    (ctx : Context) (p : String) (r : Stream) :
    (b.Put (recording svc) (st, []) ctx p r).1.2 = [Call.upload ctx (b.putInput p r)] := by
  simp only [Backend.Put, recording]
  cases h : (svc.Upload st ctx (b.putInput p r)).2 <;> simp

/-- C4: the one upload request `Put` hands to the uploader carries no
server-side-encryption value when the configured mode is the empty string,
and exactly the configured mode when it is not empty. -/
theorem put_serverSideEncryption {σ : Type} (b : Backend) (svc : Service σ) (st : σ)
    (ctx : Context) (p : String) (r : Stream) :
    (b.Put (recording svc) (st, []) ctx p r).1.2 = [Call.upload ctx (b.putInput p r)] ∧
    (b.encryption = "" → (b.putInput p r).ServerSideEncryption = none) ∧
    (∀ s, b.encryption = s → s ≠ "" → (b.putInput p r).ServerSideEncryption = some s) := by
  refine ⟨put_recording_calls b svc st ctx p r, ?_, ?_⟩
  · intro h
    simp [Backend.putInput, h]
  · intro s h hs
    subst h
    simp [Backend.putInput, hs]

/-- The options `New` hands to `LoadDefaultConfig` for a configuration. -/
theorem new_eq (load : LoadOptions → AwsConfig × Option GoError) (l : Logger) (c : Config)
    (debug : Bool) :
    New load l c debug =
      (some { logger := (match (load { region := c.Region,
                                        sharedConfigProfile :=
                                          if c.Profile ≠ "" then some c.Profile else none }).2 with
                         | some e => logError l e
                         | none => l),
              bucket := c.Bucket, acl := c.ACL, encryption := c.Encryption,
              client := NewFromConfig (load { region := c.Region,
                                              sharedConfigProfile :=
                                                if c.Profile ≠ "" then some c.Profile
                                                else none }).1 }, none) := by
  unfold New
  by_cases h : c.Profile = "" <;> simp [h]

/-- C7, as the code has it: whatever `LoadDefaultConfig` answers, `New`
returns a backend and a nil error; the backend holds the configured bucket,
access-control setting and encryption mode and a client made from the
configuration that was loaded, and a failure to load is written to the logger
at error level. -/
theorem new_never_fails (load : LoadOptions → AwsConfig × Option GoError) (l : Logger)
    (c : Config) (debug : Bool) :
    ∃ b, New load l c debug = (some b, none) ∧
      b.bucket = c.Bucket ∧ b.acl = c.ACL ∧ b.encryption = c.Encryption ∧
      b.client = NewFromConfig (load { region := c.Region,
                                       sharedConfigProfile :=
                                         if c.Profile ≠ "" then some c.Profile else none }).1 ∧
      (∀ e, (load { region := c.Region,
                    sharedConfigProfile :=
                      if c.Profile ≠ "" then some c.Profile else none }).2 = some e →
        b.logger = logError l e) ∧
      ((load { region := c.Region,
               sharedConfigProfile :=
                 if c.Profile ≠ "" then some c.Profile else none }).2 = none →
        b.logger = l) := by
  refine ⟨_, new_eq load l c debug, rfl, rfl, rfl, rfl, ?_, ?_⟩
  · intro e h
    dsimp only
    rw [h]
  · intro h
    dsimp only
    rw [h]

/-- C7 fails on the code: with a `LoadDefaultConfig` that cannot resolve the
configuration, `New` still returns a backend and a nil error. -/
theorem new_load_failure_returns_backend :
    (failingLoad { region := "eu-west-1", sharedConfigProfile := none }).2
        = some (.service "failed to get shared config profile") ∧
      (New failingLoad [] exampleConfig false).2 = none ∧
      (New failingLoad [] exampleConfig false).1 ≠ none := by
  refine ⟨rfl, rfl, ?_⟩
  simp [new_eq]

/-- C10 fails on the code: when the head request reports success without an
ETag, `Exists` dereferences the nil pointer instead of returning `(false, nil)`. -/
theorem exists_nil_etag_panics :
    etaglessService.HeadObject () background (exampleBackend.headInput "missing/key")
        = ((), .ok { ETag := none }) ∧
      (exampleBackend.Exists etaglessService () background "missing/key").2
        = .nilDereference ∧
      (exampleBackend.Exists etaglessService () background "missing/key").2
        ≠ .ret (false, none) := by
  refine ⟨rfl, rfl, ?_⟩
  simp [Backend.Exists, etaglessService]

/-! ### Schedules of `Get` -/

/-- A property kept by every enabled step is kept by every schedule. -/
theorem getRun_induction {σ : Type} (svc : Service σ) (b : Backend) (p : String)
    (P : GetState σ → Prop)
    (hstep : ∀ a s s1, P s → getStep svc b p a s = some s1 → P s1) :
    ∀ sched s, P s → P (getRun svc b p sched s) := by
  intro sched
  induction sched with
  | nil => intro s h; exact h
  | cons a rest ih =>
    intro s h
    simp only [getRun]
    cases hs : getStep svc b p a s with
    | none => exact ih s h
    | some s1 => exact ih s1 (hstep a s s1 h hs)

/-- A property kept by every enabled step other than a cancellation is kept by
every schedule without cancellation. -/
theorem getRun_induction_noCancel {σ : Type} (svc : Service σ) (b : Backend) (p : String)
    (P : GetState σ → Prop)
    (hstep : ∀ a s s1, a.isCancel = false → P s → getStep svc b p a s = some s1 → P s1) :
    ∀ sched, noCancel sched → ∀ s, P s → P (getRun svc b p sched s) := by
  intro sched
  induction sched with
  | nil => intro _ s h; exact h
  | cons a rest ih =>
    intro hnc s h
    have ha : a.isCancel = false := hnc a (List.mem_cons_self a rest)
    have hrest : noCancel rest := fun x hx => hnc x (List.mem_cons_of_mem a hx)
    simp only [getRun]
    cases hs : getStep svc b p a s with
    | none => exact ih hrest s h
    | some s1 => exact ih hrest s1 (hstep a s s1 ha h hs)

/-- Running two schedules one after the other. -/
theorem getRun_append {σ : Type} (svc : Service σ) (b : Backend) (p : String)
    (xs ys : List Action) (s : GetState σ) :
    getRun svc b p (xs ++ ys) s = getRun svc b p ys (getRun svc b p xs s) := by
  induction xs generalizing s with
  | nil => rfl
  | cons a rest ih =>
    simp only [List.cons_append, getRun]
    cases getStep svc b p a s with
    | none => exact ih s
    | some s1 => exact ih s1

/-- Every error is itself, for `errors.Is`. -/
theorem errorsIs_self (e : GoError) : errorsIs e e = true := by
  unfold errorsIs
  simp

/-- With a live context that is never cancelled, a failing `GetObject` leaves
`Get` only one thing to return, the wrapped error, and `Get` does return it
once the goroutine and the `select` have had their turn. -/
theorem get_getObject_error {σ : Type} (b : Backend) (svc : Service σ) (st st1 : σ)
    (ctx : Context) (p : String) (w : Writer) (e : GoError)
    (hctx : ctx.err = none)
    (hget : svc.GetObject st ctx (b.getInput p) = (st1, .error e)) :
    ∀ sched, noCancel sched →
      (b.Get svc st ctx p w (sched ++ [.goroutine, .recvErrCh])).ret
          = some (some (errorf "get the object, " e)) ∧
      ∀ r, (b.Get svc st ctx p w sched).ret = some r →
        r = some (errorf "get the object, " e) := by
  intro sched hnc
  have key := getRun_induction_noCancel svc b p
    (fun s =>
      s = getInit st ctx w ∨
      s = { getInit st ctx w with
            svc := st1, pc := .sendGetErr (errorf "get the object, " e) } ∨
      s = { getInit st ctx w with
            svc := st1, pc := .closeErrCh,
            ret := some (some (errorf "get the object, " e)) } ∨
      s = { getInit st ctx w with
            svc := st1, pc := .exited, errChClosed := true,
            ret := some (some (errorf "get the object, " e)) })
    (by
      intro a s s1 ha hP hs
      rcases hP with rfl | rfl | rfl | rfl <;> cases a <;>
        simp [getStep, getInit, hget, hctx, Context.Err, Action.isCancel] at hs ha ⊢ <;>
        simp [← hs])
    sched hnc (getInit st ctx w) (Or.inl rfl)
  constructor
  · simp only [Backend.Get, getRun_append]
    rcases key with h | h | h | h <;> rw [h] <;>
      simp [getRun, getStep, getInit, hget]
  · intro r hr
    simp only [Backend.Get] at hr
    rcases key with h | h | h | h <;> rw [h] at hr <;> simp [getInit] at hr <;>
      simp [← hr]

/-- With a live context that is never cancelled, a `GetObject` that succeeds
and a copy that succeeds leave `Get` only nil to return, by then the whole
body is in the writer and the body is closed, and `Get` does return once the
goroutine and the `select` have had their turn. -/
theorem get_success {σ : Type} (b : Backend) (svc : Service σ) (st st1 : σ)
    (ctx : Context) (p : String) (w w1 : Writer) (body : Stream)
    (hctx : ctx.err = none)
    (hget : svc.GetObject st ctx (b.getInput p) = (st1, .ok { Body := body }))
    (hcopy : ioCopy w body = (w1, none)) :
    ∀ sched, noCancel sched →
      (b.Get svc st ctx p w
        (sched ++ [.goroutine, .goroutine, .goroutine, .goroutine, .recvErrCh])).ret
          = some none ∧
      ∀ r, (b.Get svc st ctx p w sched).ret = some r →
        r = none ∧ (b.Get svc st ctx p w sched).w = w1 ∧
          (b.Get svc st ctx p w sched).body = .closed := by
  intro sched hnc
  have key := getRun_induction_noCancel svc b p
    (fun s =>
      s = getInit st ctx w ∨
      s = { getInit st ctx w with svc := st1, pc := .copy body, body := .opened } ∨
      s = { getInit st ctx w with
            svc := st1, pc := .closeBody, body := .opened, w := w1 } ∨
      s = { getInit st ctx w with
            svc := st1, pc := .closeErrCh, body := .closed, w := w1 } ∨
      s = { getInit st ctx w with
            svc := st1, pc := .exited, body := .closed, w := w1, errChClosed := true } ∨
      s = { getInit st ctx w with
            svc := st1, pc := .exited, body := .closed, w := w1, errChClosed := true,
            ret := some none })
    (by
      intro a s s1 ha hP hs
      rcases hP with rfl | rfl | rfl | rfl | rfl | rfl <;> cases a <;>
        simp [getStep, getInit, hget, hcopy, hctx, Context.Err, Action.isCancel,
          CloseWithErrLogf] at hs ha ⊢ <;>
        simp [← hs])
    sched hnc (getInit st ctx w) (Or.inl rfl)
  constructor
  · simp only [Backend.Get, getRun_append]
    rcases key with h | h | h | h | h | h <;> rw [h] <;>
      simp [getRun, getStep, getInit, hget, hcopy, CloseWithErrLogf]
  · intro r hr
    simp only [Backend.Get] at hr ⊢
    rcases key with h | h | h | h | h | h <;> rw [h] at hr ⊢ <;> simp [getInit] at hr ⊢
    simp [← hr]

/-- C5: an error of the service call is returned wrapped with the name of the
operation.  A failing `Upload` makes `Put` return `put the object, ` followed
by the error; a failing `HeadObject` whose error is not a `NoSuchKey` makes
`Exists` return false and `head the object, ` followed by the error; with a
context that is not cancelled a failing `GetObject` makes `Get` return
`get the object, ` followed by the error: after any schedule without
cancellation it is all `Get` can have returned, and `Get` returns it once
the goroutine and the `select` take their steps.  The returned error unwraps
to the error of the service, and a `NoSuchKey` in its chain is still
recognised. -/
theorem service_error_is_wrapped {σ : Type} (b : Backend) (svc : Service σ) (st st1 : σ)
    (ctx : Context) (p : String) (e : GoError) :
    (∀ r, svc.Upload st ctx (b.putInput p r) = (st1, some e) →
      b.Put svc st ctx p r = (st1, some (errorf "put the object, " e))) ∧
    (svc.HeadObject st ctx (b.headInput p) = (st1, .error e) → errorsAsNoSuchKey e = false →
      b.Exists svc st ctx p = (st1, .ret (false, some (errorf "head the object, " e)))) ∧
    (ctx.err = none → svc.GetObject st ctx (b.getInput p) = (st1, .error e) →
      ∀ w sched, noCancel sched →
        (b.Get svc st ctx p w (sched ++ [.goroutine, .recvErrCh])).ret
            = some (some (errorf "get the object, " e)) ∧
        ∀ r, (b.Get svc st ctx p w sched).ret = some r →
          r = some (errorf "get the object, " e)) ∧
    (∀ pfx, (errorf pfx e).unwrap = some e ∧
      (errorf pfx e).message = pfx ++ e.message ∧
      errorsIs (errorf pfx e) e = true ∧
      (errorsAsNoSuchKey e = true → errorsAsNoSuchKey (errorf pfx e) = true)) := by
  refine ⟨?_, ?_, ?_, ?_⟩
  · intro r h
    simp [Backend.Put, h]
  · intro h hn
    simp [Backend.Exists, h, hn]
  · intro hctx hget w sched hnc
    exact get_getObject_error b svc st st1 ctx p w e hctx hget sched hnc
  · intro pfx
    refine ⟨rfl, rfl, ?_, ?_⟩
    · unfold errorsIs errorf
      simp [errorsIs_self]
    · intro h
      simpa [errorf, errorsAsNoSuchKey] using h

/-- The fields of the request of `Put` that do not depend on the encryption mode. -/
theorem putInput_fields (b : Backend) (p : String) (r : Stream) :
    (b.putInput p r).Bucket = some b.bucket ∧ (b.putInput p r).Key = some p ∧
      (b.putInput p r).ACL = b.acl ∧ (b.putInput p r).Body = r := by
  unfold Backend.putInput
  by_cases h : b.encryption = "" <;> simp [h]

/-- What `io.Copy` does with a source that reads to its end and a writer that
has room for it. -/
theorem ioCopy_accepts (w : Writer) (c : Bytes)
    (hw : ∀ n e, w.fault = some (n, e) → c.length ≤ n) :
    (ioCopy w { data := c, fault := none }).2 = none ∧
      (ioCopy w { data := c, fault := none }).1.written = w.written ++ c := by
  unfold ioCopy
  cases hf : w.fault with
  | none => simp
  | some ne =>
    obtain ⟨n, e⟩ := ne
    have := hw n e hf
    simp [Nat.not_lt.mpr this]

/-- C1: the round-trip law over the in-memory service.  When `Put` of the
content `c` under the key `k` returns nil with a context that is not
cancelled, `Exists` of `k` returns `(true, nil)` and `Get` of `k` into a
writer that accepts the bytes returns nil, having added exactly `c` to it:
after any schedule without cancellation `Get` returns nil once the goroutine
and the `select` take their steps, and nil with `c` written is all it can
have returned. -/
theorem roundtrip (etagOf : Bytes → String) (deny : String → Option GoError)
    (b : Backend) (st : MemStore) (ctx : Context) (k : String) (c : Bytes) (w : Writer)
    (hetag : ∀ x, etagOf x ≠ "")
    (hctx : ctx.err = none)
    (hput : (b.Put (memService etagOf deny) st ctx k { data := c, fault := none }).2 = none)
    (hw : ∀ n e, w.fault = some (n, e) → c.length ≤ n) :
    ∃ st1, b.Put (memService etagOf deny) st ctx k { data := c, fault := none } = (st1, none) ∧
      b.Exists (memService etagOf deny) st1 ctx k = (st1, .ret (true, none)) ∧
      ∀ sched, noCancel sched →
        (b.Get (memService etagOf deny) st1 ctx k w
          (sched ++ [.goroutine, .goroutine, .goroutine, .goroutine, .recvErrCh])).ret
            = some none ∧
        ∀ r, (b.Get (memService etagOf deny) st1 ctx k w sched).ret = some r →
          r = none ∧
          (b.Get (memService etagOf deny) st1 ctx k w sched).w.written = w.written ++ c := by
  obtain ⟨hB, hK, _, hBody⟩ := putInput_fields b k { data := c, fault := none }
  have hk : k ≠ "" := by
    intro hk
    subst hk
    have : (memService etagOf deny).Upload st ctx (b.putInput "" { data := c, fault := none })
        = (st, some (emptyKeyError "PutObject")) := by
      simp [memService, hctx, hB, hK]
    simp [Backend.Put, this] at hput
  have hup : (memService etagOf deny).Upload st ctx (b.putInput k { data := c, fault := none })
      = match deny k with
        | some e => (st, some e)
        | none => (((b.bucket, k), c) :: st, none) := by
    simp only [memService, hctx, hB, hK, hBody, if_neg hk]
    cases deny k <;> rfl
  cases hd : deny k with
  | some e =>
    rw [hd] at hup
    simp [Backend.Put, hup] at hput
  | none =>
    rw [hd] at hup
    have hlook : List.lookup (b.bucket, k) (((b.bucket, k), c) :: st) = some c := by
      simp [List.lookup]
    have hhead : (memService etagOf deny).HeadObject (((b.bucket, k), c) :: st) ctx
        (b.headInput k) = (((b.bucket, k), c) :: st, .ok { ETag := some (etagOf c) }) := by
      simp only [memService, hctx, Backend.headInput, hlook, if_neg hk]
    have hget : (memService etagOf deny).GetObject (((b.bucket, k), c) :: st) ctx
        (b.getInput k)
        = (((b.bucket, k), c) :: st, .ok { Body := { data := c, fault := none } }) := by
      simp only [memService, hctx, Backend.getInput, hlook, if_neg hk]
    obtain ⟨hc1, hc2⟩ := ioCopy_accepts w c hw
    have hcopy : ioCopy w { data := c, fault := none }
        = ((ioCopy w { data := c, fault := none }).1, none) := Prod.ext rfl hc1
    refine ⟨((b.bucket, k), c) :: st, ?_, ?_, ?_⟩
    · simp [Backend.Put, hup]
    · simp [Backend.Exists, hhead, hetag]
    · intro sched hnc
      obtain ⟨hrun, hall⟩ :=
        get_success b (memService etagOf deny) _ _ ctx k w _ _ hctx hget hcopy sched hnc
      refine ⟨hrun, ?_⟩
      intro r hr
      obtain ⟨h1, h2, _⟩ := hall r hr
      exact ⟨h1, by rw [h2, hc2]⟩

/-- Witness of C1: `hello` stored under `cache/abc.tar` in the empty bucket. -/
theorem roundtrip_witness :
    (∀ x, exampleEtag x ≠ "") ∧ background.err = none ∧
    (exampleBackend.Put exampleService [] background "cache/abc.tar"
        { data := hello, fault := none }).2 = none ∧
    (∀ n e, buffer.fault = some (n, e) → hello.length ≤ n) ∧
    ∃ st1, exampleBackend.Put exampleService [] background "cache/abc.tar"
        { data := hello, fault := none } = (st1, none) ∧
      exampleBackend.Exists exampleService st1 background "cache/abc.tar"
        = (st1, .ret (true, none)) ∧
      ∀ sched, noCancel sched →
        (exampleBackend.Get exampleService st1 background "cache/abc.tar" buffer
          (sched ++ [.goroutine, .goroutine, .goroutine, .goroutine, .recvErrCh])).ret
            = some none ∧
        ∀ r,
          (exampleBackend.Get exampleService st1 background "cache/abc.tar" buffer sched).ret
              = some r →
            r = none ∧
            (exampleBackend.Get exampleService st1 background "cache/abc.tar" buffer
                sched).w.written
              = buffer.written ++ hello :=
  ⟨fun _ => (by decide : "etag-1" ≠ ""), rfl, rfl, fun _ _ h => (by cases h),
    roundtrip exampleEtag allowAll exampleBackend [] background "cache/abc.tar" hello buffer
      (fun _ => (by decide : "etag-1" ≠ "")) rfl rfl (fun _ _ h => (by cases h))⟩

/-- Once `Get` has returned, no step changes what it returned. -/
theorem getStep_ret {σ : Type} (svc : Service σ) (b : Backend) (p : String) (a : Action)
    (s s1 : GetState σ) (r : Option GoError) (hr : s.ret = some r)
    (hs : getStep svc b p a s = some s1) : s1.ret = some r := by
  obtain ⟨svc0, ctx0, w0, pc0, body0, cl0, ret0⟩ := s
  simp only at hr
  subst hr
  cases a with
  | cancel c =>
    simp only [getStep] at hs
    split at hs <;> simp at hs
    subst hs; rfl
  | recvDone => simp [getStep] at hs
  | recvErrCh => simp [getStep] at hs
  | goroutine =>
    cases pc0 <;> simp only [getStep] at hs
    · split at hs <;> simp at hs <;> subst hs <;> rfl
    · simp at hs
    · split at hs <;> simp at hs <;> subst hs <;> rfl
    · simp at hs
    · simp at hs; subst hs; rfl
    · simp at hs; subst hs; rfl
    · simp at hs

/-- The invariant `GetInv` is kept by every step. -/
theorem getInv_step {σ : Type} (svc : Service σ) (b : Backend) (p : String) (st : σ)
    (w : Writer) (a : Action) (s s1 : GetState σ)
    (hI : GetInv svc b p st w s)
    (hs : getStep svc b p a s = some s1) :
    GetInv svc b p st w s1 := by
  rcases hI with ⟨e, he⟩ | ⟨hr, hc, hpc⟩ | ⟨hpc, hb, hc, hT, hr⟩
  · exact Or.inl ⟨e, getStep_ret svc b p a s s1 _ he hs⟩
  · obtain ⟨svc0, ctx0, w0, pc0, body0, cl0, ret0⟩ := s
    simp only at hr hc hpc
    subst hr hc
    cases a with
    | cancel c =>
      simp only [getStep] at hs
      split at hs <;> simp at hs
      subst hs
      exact Or.inr (Or.inl ⟨rfl, rfl, hpc⟩)
    | recvDone =>
      simp only [getStep] at hs
      split at hs <;> simp at hs
      subst hs
      exact Or.inl ⟨_, rfl⟩
    | recvErrCh =>
      simp only [getStep] at hs
      split at hs
      · simp at hs; subst hs; exact Or.inl ⟨_, rfl⟩
      · simp at hs; subst hs; exact Or.inl ⟨_, rfl⟩
      · simp at hs
    | goroutine =>
      rcases hpc with ⟨hp, hsv, hw⟩ | ⟨e, hp⟩ | ⟨e, hp⟩ | ⟨body, ctx1, hp, hw, hg⟩ | ⟨hp, hT⟩ |
        ⟨hp, hb, hT⟩ <;> subst hp <;> simp only [getStep] at hs
      · subst hsv hw
        split at hs
        · simp at hs; subst hs
          exact Or.inr (Or.inl ⟨rfl, rfl, Or.inr (Or.inl ⟨_, rfl⟩)⟩)
        · next st1 out hg =>
          simp at hs; subst hs
          exact Or.inr (Or.inl ⟨rfl, rfl,
            Or.inr (Or.inr (Or.inr (Or.inl ⟨out.Body, ctx0, rfl, rfl, hg⟩)))⟩)
      · simp at hs
      · simp at hs
      · subst hw
        split at hs
        · simp at hs; subst hs
          exact Or.inr (Or.inl ⟨rfl, rfl, Or.inr (Or.inr (Or.inl ⟨_, rfl⟩))⟩)
        · next w1 hcp =>
          simp at hs; subst hs
          exact Or.inr (Or.inl ⟨rfl, rfl,
            Or.inr (Or.inr (Or.inr (Or.inr (Or.inl ⟨rfl, ctx1, body, hg, hcp⟩))))⟩)
      · simp at hs; subst hs
        exact Or.inr (Or.inl ⟨rfl, rfl,
          Or.inr (Or.inr (Or.inr (Or.inr (Or.inr ⟨rfl, rfl, hT⟩))))⟩)
      · simp at hs; subst hs
        exact Or.inr (Or.inr ⟨rfl, hb, rfl, hT, Or.inl rfl⟩)
  · obtain ⟨svc0, ctx0, w0, pc0, body0, cl0, ret0⟩ := s
    simp only at hpc hb hc hr
    subst hpc hb hc
    cases a with
    | cancel c =>
      simp only [getStep] at hs
      split at hs <;> simp at hs
      subst hs
      exact Or.inr (Or.inr ⟨rfl, rfl, rfl, hT, hr⟩)
    | recvDone =>
      simp only [getStep] at hs
      split at hs
      · simp at hs
      · split at hs <;> simp at hs
        subst hs
        exact Or.inl ⟨_, rfl⟩
    | recvErrCh =>
      simp only [getStep] at hs
      split at hs
      · simp at hs
      · simp at hs
        subst hs
        exact Or.inr (Or.inr ⟨rfl, rfl, rfl, hT, Or.inr rfl⟩)
    | goroutine => simp [getStep] at hs

/-- The invariant `GetInv` holds along every schedule of `Get`. -/
theorem get_inv {σ : Type} (b : Backend) (svc : Service σ) (st : σ) (ctx : Context)
    (p : String) (w : Writer) (sched : List Action) :
    GetInv svc b p st w (b.Get svc st ctx p w sched) :=
  getRun_induction svc b p (GetInv svc b p st w)
    (fun a s s1 hI hs => getInv_step svc b p st w a s s1 hI hs) sched (getInit st ctx w)
    (Or.inr (Or.inl ⟨rfl, rfl, Or.inl ⟨rfl, rfl, rfl⟩⟩))

/-- Get returns nil only after a complete transfer: `GetObject` succeeded, the
copy of the body into the writer ended without error, the body is closed and
the goroutine has exited. -/
theorem get_nil_transfer_done {σ : Type} (b : Backend) (svc : Service σ) (st : σ)
    (ctx : Context) (p : String) (w : Writer) (sched : List Action)
    (h : (b.Get svc st ctx p w sched).ret = some none) :
    (b.Get svc st ctx p w sched).pc = .exited ∧
      (b.Get svc st ctx p w sched).body = .closed ∧
      TransferDone svc b p st w (b.Get svc st ctx p w sched) := by
  rcases get_inv b svc st ctx p w sched with ⟨e, he⟩ | ⟨hr, _⟩ | ⟨hpc, hb, _, hT, _⟩
  · rw [h] at he; simp at he
  · rw [h] at hr; simp at hr
  · exact ⟨hpc, hb, hT⟩

/-- Witness of C5: a service that refuses every call, and `Get` of a key the
in-memory service does not hold. -/
theorem service_error_is_wrapped_witness :
    exampleBackend.Put forbiddenService () background "cache/abc.tar"
        { data := hello, fault := none }
      = ((), some (errorf "put the object, " (.service "AccessDenied: Access Denied"))) ∧
    exampleBackend.Exists forbiddenService () background "cache/abc.tar"
      = ((), .ret (false,
          some (errorf "head the object, " (.service "AccessDenied: Access Denied")))) ∧
    (exampleBackend.Get exampleService [] background "missing/key" buffer
        ([] ++ [.goroutine, .recvErrCh])).ret
      = some (some (errorf "get the object, " noSuchKeyError)) ∧
    (errorf "get the object, " noSuchKeyError).message
      = "get the object, operation error S3: NoSuchKey: The specified key does not exist." ∧
    errorsAsNoSuchKey (errorf "get the object, " noSuchKeyError) = true :=
  ⟨(service_error_is_wrapped exampleBackend forbiddenService () () background "cache/abc.tar"
      (.service "AccessDenied: Access Denied")).1 _ rfl,
   (service_error_is_wrapped exampleBackend forbiddenService () () background "cache/abc.tar"
      (.service "AccessDenied: Access Denied")).2.1 rfl rfl,
   ((service_error_is_wrapped exampleBackend exampleService [] [] background "missing/key"
      noSuchKeyError).2.2.1 rfl rfl buffer [] (fun _ h => nomatch h)).1,
   by decide,
   ((service_error_is_wrapped exampleBackend exampleService [] [] background "missing/key"
      noSuchKeyError).2.2.2 "get the object, ").2.2.2 rfl⟩

/-- C6 fails on the code: the context is cancelled while the goroutine has
not yet copied the body, the goroutine then completes the transfer and closes
`errCh`, and the `select` of `Get` takes the closed channel: `Get` returns nil. -/
theorem get_nil_although_cancelled :
    (exampleBackend.Get exampleService helloStore background "cache/abc.tar" buffer
        [.goroutine, .cancel .canceled]).ctx.err = some .canceled ∧
    (exampleBackend.Get exampleService helloStore background "cache/abc.tar" buffer
        [.goroutine, .cancel .canceled]).pc = .copy { data := hello, fault := none } ∧
    (exampleBackend.Get exampleService helloStore background "cache/abc.tar" buffer
        [.goroutine, .cancel .canceled]).ret = none ∧
    (exampleBackend.Get exampleService helloStore background "cache/abc.tar" buffer
        [.goroutine, .cancel .canceled, .goroutine, .goroutine, .goroutine, .recvErrCh]).ret
      = some none :=
  ⟨rfl, rfl, rfl, rfl⟩

/-- C6, as the code has it: when the context is done and `Get` has not
returned, the `ctx.Done()` case of the `select` can be taken at once, whatever
the goroutine is doing, and `Get` then returns the error of the context; it
is the only case the `select` can take unless the goroutine is blocked
sending an error or has closed `errCh`.  `Get` returns nil only after a
complete transfer. -/
theorem get_context_done {σ : Type} (b : Backend) (svc : Service σ) (st : σ) (ctx : Context)
    (p : String) (w : Writer) (sched : List Action) (c : Cause)
    (hret : (b.Get svc st ctx p w sched).ret = none)
    (hdone : (b.Get svc st ctx p w sched).ctx.err = some c) :
    (b.Get svc st ctx p w (sched ++ [.recvDone])).ret = some (some (.context c)) ∧
    ((b.Get svc st ctx p w sched).errChClosed = false →
      (∀ e, (b.Get svc st ctx p w sched).pc ≠ .sendGetErr e) →
      (∀ e, (b.Get svc st ctx p w sched).pc ≠ .sendCopyErr e) →
      (b.Get svc st ctx p w (sched ++ [.recvErrCh])).ret = none) ∧
    (∀ rest, (b.Get svc st ctx p w (sched ++ rest)).ret = some none →
      (b.Get svc st ctx p w (sched ++ rest)).pc = .exited ∧
      (b.Get svc st ctx p w (sched ++ rest)).body = .closed ∧
      TransferDone svc b p st w (b.Get svc st ctx p w (sched ++ rest))) := by
  refine ⟨?_, ?_, ?_⟩
  · simp only [Backend.Get, getRun_append] at hret hdone ⊢
    simp [getRun, getStep, hret, Context.Err, hdone]
  · intro hc h1 h2
    simp only [Backend.Get, getRun_append] at hret hc h1 h2 ⊢
    generalize getRun svc b p sched (getInit st ctx w) = s at hret hc h1 h2 ⊢
    obtain ⟨svc0, ctx0, w0, pc0, body0, cl0, ret0⟩ := s
    simp only at hret hc h1 h2
    subst hret hc
    cases pc0 <;> simp [getRun, getStep] at h1 h2 ⊢
  · intro rest h
    exact get_nil_transfer_done b svc st ctx p w (sched ++ rest) h

/-- Witness of C6: the context is cancelled while the body of `cache/abc.tar`
waits to be copied. -/
theorem get_context_done_witness :
    (exampleBackend.Get exampleService helloStore background "cache/abc.tar" buffer
        [.goroutine, .cancel .canceled]).ret = none ∧
    (exampleBackend.Get exampleService helloStore background "cache/abc.tar" buffer
        [.goroutine, .cancel .canceled]).ctx.err = some .canceled ∧
    (exampleBackend.Get exampleService helloStore background "cache/abc.tar" buffer
        ([.goroutine, .cancel .canceled] ++ [.recvDone])).ret
      = some (some (.context .canceled)) :=
  ⟨rfl, rfl, (get_context_done exampleBackend exampleService helloStore background
    "cache/abc.tar" buffer [.goroutine, .cancel .canceled] .canceled rfl rfl).1⟩

/-- Once `Get` has returned, a goroutine that is blocked sending its copy
error stays there under every schedule, and the body stays as it is. -/
theorem getRun_blocked {σ : Type} (svc : Service σ) (b : Backend) (p : String)
    (s : GetState σ) (r : Option GoError) (e : GoError)
    (hr : s.ret = some r) (hpc : s.pc = .sendCopyErr e) (rest : List Action) :
    (getRun svc b p rest s).ret = some r ∧ (getRun svc b p rest s).pc = .sendCopyErr e ∧
      (getRun svc b p rest s).body = s.body := by
  refine getRun_induction svc b p
    (fun t => t.ret = some r ∧ t.pc = .sendCopyErr e ∧ t.body = s.body) ?_ rest s
    ⟨hr, hpc, rfl⟩
  intro a t t1 ⟨h1, h2, h3⟩ ht
  obtain ⟨svc0, ctx0, w0, pc0, body0, cl0, ret0⟩ := t
  simp only at h1 h2 h3
  subst h1 h2
  cases a with
  | cancel c =>
    simp only [getStep] at ht
    split at ht <;> simp at ht
    subst ht
    exact ⟨rfl, rfl, h3⟩
  | recvDone => simp [getStep] at ht
  | recvErrCh => simp [getStep] at ht
  | goroutine => simp [getStep] at ht

/-- C9 fails on the code: `GetObject` succeeds, the context is cancelled and
`Get` returns the error of the context; the copy then fails and the goroutine
blocks for ever in `errCh <- err`, for which there is no receiver left.  Under
every continuation the deferred close does not run: the body stays open. -/
theorem get_cancel_leaves_body_open :
    (exampleBackend.Get stalledService () background "cache/abc.tar" buffer
        [.goroutine, .cancel .canceled, .recvDone, .goroutine]).ret
      = some (some (.context .canceled)) ∧
    ∀ rest,
      (exampleBackend.Get stalledService () background "cache/abc.tar" buffer
          ([.goroutine, .cancel .canceled, .recvDone, .goroutine] ++ rest)).body = .opened ∧
      (exampleBackend.Get stalledService () background "cache/abc.tar" buffer
          ([.goroutine, .cancel .canceled, .recvDone, .goroutine] ++ rest)).pc
        = .sendCopyErr (errorf "copy the object, " (.service "unexpected EOF")) := by
  refine ⟨rfl, ?_⟩
  intro rest
  simp only [Backend.Get, getRun_append]
  obtain ⟨_, h2, h3⟩ := getRun_blocked stalledService exampleBackend "cache/abc.tar"
    (getRun stalledService exampleBackend "cache/abc.tar"
      [.goroutine, .cancel .canceled, .recvDone, .goroutine] (getInit () background buffer))
    (some (.context .canceled)) (errorf "copy the object, " (.service "unexpected EOF"))
    rfl rfl rest
  exact ⟨h3.trans rfl, h2⟩

/-- The calls a recording service has received during a call of `Get`: none
before the goroutine calls `GetObject`, and from then on that one call, for
the bucket of the backend and the key of the caller. -/
theorem get_recording_calls {σ : Type} (b : Backend) (svc : Service σ) (st : σ)
    (ctx : Context) (p : String) (w : Writer) (sched : List Action) :
    ((b.Get (recording svc) (st, []) ctx p w sched).pc = .callGetObject ∧
      (b.Get (recording svc) (st, []) ctx p w sched).svc.2 = []) ∨
    ((b.Get (recording svc) (st, []) ctx p w sched).pc ≠ .callGetObject ∧
      ∃ ctx1, (b.Get (recording svc) (st, []) ctx p w sched).svc.2
        = [Call.getObject ctx1 (b.getInput p)]) := by
  refine getRun_induction (recording svc) b p
    (fun s => (s.pc = .callGetObject ∧ s.svc.2 = []) ∨
      (s.pc ≠ .callGetObject ∧ ∃ ctx1, s.svc.2 = [Call.getObject ctx1 (b.getInput p)]))
    ?_ sched (getInit (st, []) ctx w) (Or.inl ⟨rfl, rfl⟩)
  intro a s s1 hI hs
  obtain ⟨⟨st0, log0⟩, ctx0, w0, pc0, body0, cl0, ret0⟩ := s
  simp only at hI
  cases a <;> cases pc0 <;> simp only [getStep] at hs <;>
    (try split at hs) <;> (try split at hs) <;>
    simp at hs <;> subst hs <;> simp_all [recording]
  all_goals
    rename_i h
    exact ⟨ctx0, by rw [← h.1]⟩

/-- The one call a recording service receives from `Exists`. -/
theorem exists_recording_calls {σ : Type} (b : Backend) (svc : Service σ) (st : σ)
    (ctx : Context) (p : String) :
    (b.Exists (recording svc) (st, []) ctx p).1.2 = [Call.headObject ctx (b.headInput p)] := by
  simp only [Backend.Exists, recording]
  split
  · next st1 err h =>
    simp only [Prod.mk.injEq] at h
    split <;> simp [← h.1]
  · next st1 out h =>
    simp only [Prod.mk.injEq] at h
    split <;> simp [← h.1]

/-- What `Put` returns is nil exactly when the upload returns nil. -/
theorem put_nil_iff {σ : Type} (b : Backend) (svc : Service σ) (st : σ)
    (ctx : Context) (p : String) (r : Stream) :
    (b.Put svc st ctx p r).2 = none ↔ (svc.Upload st ctx (b.putInput p r)).2 = none := by
  simp only [Backend.Put]
  split
  · next st1 err h => simp [h]
  · next st1 h => simp [h]

/-- C8: for the backend `New` builds from a configuration, the one request
`Put` hands to the uploader has the configured bucket, the key and the reader
of the caller and the configured access-control setting, and `Put` returns
nil exactly when that upload does; the one request of `Exists` and the one
request of `Get` name the configured bucket and the key of the caller. -/
theorem requests_name_bucket_and_key {σ : Type}
    (load : LoadOptions → AwsConfig × Option GoError) (l : Logger) (c : Config)
    (debug : Bool) (svc : Service σ) (st : σ) (ctx : Context) (p : String) :
    ∃ b, New load l c debug = (some b, none) ∧
      (∀ r, ∃ inp,
        (b.Put (recording svc) (st, []) ctx p r).1.2 = [Call.upload ctx inp] ∧
        inp.Bucket = some c.Bucket ∧ inp.Key = some p ∧ inp.ACL = c.ACL ∧ inp.Body = r ∧
        ((b.Put svc st ctx p r).2 = none ↔ (svc.Upload st ctx inp).2 = none)) ∧
      (b.Exists (recording svc) (st, []) ctx p).1.2
        = [Call.headObject ctx { Bucket := some c.Bucket, Key := some p }] ∧
      (∀ w, (b.Get (recording svc) (st, []) ctx p w [.goroutine]).svc.2
        = [Call.getObject ctx { Bucket := some c.Bucket, Key := some p }]) ∧
      (∀ w sched,
        (b.Get (recording svc) (st, []) ctx p w sched).svc.2 = [] ∨
        ∃ ctx1, (b.Get (recording svc) (st, []) ctx p w sched).svc.2
          = [Call.getObject ctx1 { Bucket := some c.Bucket, Key := some p }]) := by
  refine ⟨_, new_eq load l c debug, ?_, ?_, ?_, ?_⟩
  · intro r
    refine ⟨_, put_recording_calls _ svc st ctx p r, ?_⟩
    obtain ⟨h1, h2, h3, h4⟩ := putInput_fields
      { logger := (match (load { region := c.Region,
                                 sharedConfigProfile :=
                                   if c.Profile ≠ "" then some c.Profile else none }).2 with
                   | some e => logError l e
                   | none => l),
        bucket := c.Bucket, acl := c.ACL, encryption := c.Encryption,
        client := NewFromConfig (load { region := c.Region,
                                        sharedConfigProfile :=
                                          if c.Profile ≠ "" then some c.Profile
                                          else none }).1 } p r
    exact ⟨h1, h2, h3, h4, put_nil_iff _ svc st ctx p r⟩
  · exact exists_recording_calls _ svc st ctx p
  · intro w
    simp only [Backend.Get, getRun, getStep, getInit, recording, Backend.getInput]
    rcases svc.GetObject st ctx { Bucket := some c.Bucket, Key := some p } with ⟨st1, e | out⟩ <;>
      rfl
  · intro w sched
    rcases get_recording_calls _ svc st ctx p w sched with ⟨_, h⟩ | ⟨_, h⟩
    · exact Or.inl h
    · exact Or.inr h

end S3
